import Mathlib

/-!
Verification of the deployment-notifier scripts and the sibling file-sync tool.

Shallow embedding of:
  - src/scripts/local_deployment_notifier.py   (the "local" variant)
  - src/scripts/local-forge-deployment-notifier.py  (the "forge" variant)
  - src/copy-files-between-siblings.py

Every function below is translated directly from the Python source; the
file and function are named in a comment next to each definition.
Timestamps are modelled as natural numbers (milliseconds), matching the
`int(datetime.now(timezone.utc).timestamp() * 1000)` values the scripts use.
Side-effecting steps (HTTP calls, subprocess invocations) are modelled by
taking their outcomes as explicit inputs, and the orchestrator is modelled
as a function from those outcomes to the trace of externally visible
actions it performs.
-/

/-- Deployment states used by the notifier orchestrators.  The scripts pass
states as the strings "IN_PROGRESS", "SUCCESSFUL", "FAILED". -/
inductive DeployState where
  | inProgress
  | successful
  | failed
deriving DecidableEq

/-- From both notifier scripts: the module-level list `VALID_ENVIRONMENT_TYPES`. -/
def VALID_ENVIRONMENT_TYPES : List String :=
  ["PRODUCTION", "STAGING", "TESTING", "DEVELOPMENT", "UNMAPPED"]

/-- Python `str.upper`, modelled characterwise with `Char.toUpper`
(they agree on the ASCII environment names that matter here). -/
def py_upper (s : String) : String := String.mk (s.data.map Char.toUpper)

/-- From both notifier scripts, `validate_and_map_environment`
(local variant lines 209-214, forge variant lines 202-207):
uppercase the input and keep it if it is a valid environment type,
otherwise return "UNMAPPED". -/
def validate_and_map_environment (userInput : String) : String :=
  let normalized := py_upper userInput
  if normalized ∈ VALID_ENVIRONMENT_TYPES then normalized else "UNMAPPED"

/-- The truncation step shared by both `create_deployment_description`
implementations: if the description exceeds 255 characters, keep the
first 252 characters and append "...". -/
def truncate_description (s : String) : String :=
  if 255 < s.length then String.mk (s.data.take 252) ++ "..." else s

/-- From src/scripts/local_deployment_notifier.py, `create_deployment_description`
(lines 638-669).  The git branch, commit hash and forge user are results of
external commands and are passed in; `version` is `self.deployed_version`. -/
def create_deployment_description_local (state : DeployState) (version : Option String)
    (branch gitHash forgeUser : String) : String :=
  let versionLine : String :=
    match state, version with
    | .successful, some v => "Version: " ++ v ++ "\n"
    | _, _ => ""
  truncate_description
    (versionLine ++ "Branch: " ++ branch ++ "\n" ++ "Last Commit: " ++ gitHash
      ++ "\n" ++ "Forge User: " ++ forgeUser)

/-- From src/scripts/local-forge-deployment-notifier.py,
`create_deployment_description` (lines 625-646).  This variant has no
version line but appends the list of uncommitted files when nonempty. -/
def create_deployment_description_forge (branch gitHash forgeUser : String)
    (uncommitted : List String) : String :=
  let base := "Branch: " ++ branch ++ "\n" ++ "Commit: " ++ gitHash
      ++ "\n" ++ "Forge User: " ++ forgeUser
  let d := if uncommitted.isEmpty then base
    else base ++ "\n" ++ "Uncommitted files:\n  - " ++ String.intercalate "\n  - " uncommitted
  truncate_description d

/-- Git information returned by `get_git_info` in both scripts. -/
structure GitInfo where
  hash : String
  branch : String
deriving DecidableEq

/-- The per-run immutable fields of `LocalDeploymentNotifier.__init__` in both
scripts: the environment label, the component slug and GitHub repo loaded from
catalog-info.yaml, the run id `deploy-{timestamp}`, the start timestamp, and
(local variant only) the base sequence number captured at construction. -/
structure NotifierState where
  environment : String
  componentSlug : String
  githubRepo : Option String
  deploymentRunId : String
  deploymentStartTime : Nat
  baseSequenceNumber : Nat
deriving DecidableEq

/-- `self.environment_type` as computed in `__init__` of both scripts. -/
def environment_type (st : NotifierState) : String :=
  validate_and_map_environment st.environment

/-- From both scripts, `create_deployment_url` (local lines 671-685, forge lines
648-662).  `fullHash` is the result of the external `git rev-parse HEAD` call
(`none` when the command fails, in which case the short hash is used). -/
def create_deployment_url (st : NotifierState) (git : GitInfo)
    (fullHash : Option String) : String :=
  match st.githubRepo with
  | some repo =>
    if git.hash ≠ "unknown" then
      "https://github.com/" ++ repo ++ "/commit/" ++ fullHash.getD git.hash
    else
      "https://localhost/" ++ st.componentSlug ++ "/" ++ st.deploymentRunId
  | none => "https://localhost/" ++ st.componentSlug ++ "/" ++ st.deploymentRunId

/-- The flattened shape of the JSON payload built by `create_event_payload` in
both scripts.  Field names follow the JSON keys; the nested
`deploymentProperties.pipeline` and `.environment` objects are flattened. -/
structure EventPayload where
  cloudId : String
  updateSequenceNumber : Nat
  displayName : String
  description : String
  url : String
  lastUpdated : Nat
  externalEventSourceId : String
  componentId : Option String
  sequenceNumber : Nat
  state : DeployState
  pipelineId : String
  pipelineUrl : String
  pipelineDisplayName : String
  envDisplayName : String
  environmentId : String
  envCategory : String
  startedAt : Nat
  completedAt : Option Nat
deriving DecidableEq

/-- From src/scripts/local_deployment_notifier.py, `create_event_payload`
lines 767-778: terminal events use the current timestamp, clamped to
`base_sequence_number + 1` when the clock has not advanced past the base. -/
def sequence_number_local (base now : Nat) (state : DeployState) : Nat :=
  if state = .inProgress then base
  else if now ≤ base then base + 1 else now

/-- From src/scripts/local_deployment_notifier.py, `create_event_payload`
(lines 754-835).  `now` is the millisecond timestamp taken at the top of the
call; `cloudId`/`componentId` come from the installation record. -/
def create_event_payload_local (st : NotifierState) (cloudId : String)
    (componentId : Option String) (state : DeployState) (description : String)
    (git : GitInfo) (fullHash : Option String) (now : Nat) : EventPayload :=
  let seq := sequence_number_local st.baseSequenceNumber now state
  let deploymentUrl := create_deployment_url st git fullHash
  { cloudId := cloudId
    updateSequenceNumber := seq
    displayName := st.componentSlug ++ " deployment"
    description := description
    url := deploymentUrl
    lastUpdated := now
    externalEventSourceId := "forge_cli"
    componentId := componentId
    sequenceNumber := seq
    state := state
    pipelineId := st.deploymentRunId
    pipelineUrl := deploymentUrl
    pipelineDisplayName := "Local Forge Deployment - " ++ git.hash
    envDisplayName := st.environment
    environmentId := environment_type st
    envCategory := environment_type st
    startedAt := st.deploymentStartTime
    completedAt := if state = .inProgress then none else some now }

/-- From src/scripts/local-forge-deployment-notifier.py, `create_event_payload`
lines 675-678: every state, including terminal ones, uses the raw current
millisecond timestamp as its sequence number, with no clamping. -/
def sequence_number_forge (now : Nat) (_state : DeployState) : Nat := now

/-- From src/scripts/local-forge-deployment-notifier.py, `create_event_payload`
(lines 664-727).  The forge variant sends no `componentId` and uses the
component slug as the external event source id. -/
def create_event_payload_forge (st : NotifierState) (cloudId : String)
    (state : DeployState) (description : String) (git : GitInfo)
    (fullHash : Option String) (now : Nat) : EventPayload :=
  let seq := sequence_number_forge now state
  let deploymentUrl := create_deployment_url st git fullHash
  { cloudId := cloudId
    updateSequenceNumber := seq
    displayName := st.componentSlug ++ " deployment"
    description := description
    url := deploymentUrl
    lastUpdated := now
    externalEventSourceId := st.componentSlug
    componentId := none
    sequenceNumber := seq
    state := state
    pipelineId := st.deploymentRunId
    pipelineUrl := deploymentUrl
    pipelineDisplayName := "Local Forge Deployment - " ++ git.hash
    envDisplayName := st.environment
    environmentId := environment_type st
    envCategory := environment_type st
    startedAt := st.deploymentStartTime
    completedAt := if state = .inProgress then none else some now }

/-! ### IN_PROGRESS delivery phase and the run orchestrators

Installations are identified by a natural number.  The outcome of sending an
IN_PROGRESS event to one installation (one HTTP POST, possibly followed by the
single automatic event-source remediation and one retry) is abstracted by
`InProgressOutcome`; the loop bodies of `send_in_progress_notifications` in
both scripts classify each installation into exactly one of
`successful_installations`, `needs_setup` or `failures` according to it. -/

/-- Outcome of the IN_PROGRESS delivery attempt to one installation, as
classified by the loop in `send_in_progress_notifications` (local variant
lines 866-951, forge variant lines 762-844):
`delivered` = first POST returned 200/202;
`deliveredAfterSetup` = 404 event-source-missing, automatic creation and the
retry both succeeded;
`setupFailed` = 404 event-source-missing and the automatic creation or the
retry failed (the installation lands in `needs_setup`);
`otherFailure` = any other non-2xx status or raised exception (the
installation lands in `failures`). -/
inductive InProgressOutcome where
  | delivered
  | deliveredAfterSetup
  | setupFailed
  | otherFailure
deriving DecidableEq

/-- Whether an outcome means the IN_PROGRESS event was acknowledged. -/
def InProgressOutcome.acked : InProgressOutcome → Bool
  | .delivered => true
  | .deliveredAfterSetup => true
  | .setupFailed => false
  | .otherFailure => false

/-- The loop of `send_in_progress_notifications`: walk the installations in
order and accumulate `(successful_installations, needs_setup, failures)`. -/
def classify_in_progress (xs : List (Nat × InProgressOutcome)) :
    List Nat × List Nat × List Nat :=
  match xs with
  | [] => ([], [], [])
  | (i, o) :: rest =>
    let (s, n, f) := classify_in_progress rest
    match o with
    | .delivered => (i :: s, n, f)
    | .deliveredAfterSetup => (i :: s, n, f)
    | .setupFailed => (s, i :: n, f)
    | .otherFailure => (s, n, i :: f)

/-- Installations whose IN_PROGRESS send was acknowledged, in loop order. -/
def successesOf (xs : List (Nat × InProgressOutcome)) : List Nat :=
  xs.filterMap (fun p => if p.2.acked then some p.1 else none)

/-- Installations that ended in `needs_setup`, in loop order. -/
def setupFailuresOf (xs : List (Nat × InProgressOutcome)) : List Nat :=
  xs.filterMap (fun p => if p.2 = .setupFailed then some p.1 else none)

/-- Installations that ended in `failures`, in loop order. -/
def otherFailuresOf (xs : List (Nat × InProgressOutcome)) : List Nat :=
  xs.filterMap (fun p => if p.2 = .otherFailure then some p.1 else none)

/-- From both scripts, the tail of `send_in_progress_notifications` (local
variant lines 952-994, forge variant lines 846-892): after the loop, raise
immediately when `needs_setup` is nonempty; otherwise, when `failures` is
nonempty, send one compensating FAILED event to each successful installation
(errors during those sends are caught and only logged, which is why the
compensating recipients do not depend on their outcomes) and then raise.
Returns the result together with the list of installations to which a
compensating FAILED event is attempted, in order. -/
def send_in_progress_notifications (xs : List (Nat × InProgressOutcome)) :
    Except String Unit × List Nat :=
  let c := classify_in_progress xs
  if !c.2.1.isEmpty then
    (.error "Event source creation failed", [])
  else if !c.2.2.isEmpty then
    (.error "Deployment aborted: failed to send notifications", c.1)
  else
    (.ok (), [])

/-- Externally visible actions of one orchestrator run, in program order. -/
inductive RunAction where
  | verifyQuery (i : Nat)
  | inProgressSent (i : Nat)
  | compensatingFailed (i : Nat)
  | deployStarted
  | migrateStarted
  | terminalPhase (st : DeployState)
  | terminalSent (st : DeployState) (i : Nat)
  | fatalExit
  | okExit
deriving DecidableEq

/-- Verification outcome of `search_component_by_slug` for one discovered
installation, as used by `initialize_installations`: the component was found,
it was not found, or the lookup raised (both of the latter `continue`). -/
inductive VerifyOutcome where
  | verified
  | notFound
  | raised
deriving DecidableEq

/-- The installations that survive the verification loop, in order. -/
def verifiedOf (d : List (Nat × VerifyOutcome)) : List Nat :=
  d.filterMap (fun e => match e.2 with | .verified => some e.1 | _ => none)

/-- From both scripts, `initialize_installations` (local variant lines
559-617, forge variant lines 555-612): with no discovered installations,
return at once with an empty set; otherwise keep the verified ones and raise
exactly when none verified. -/
def initialize_installations (d : List (Nat × VerifyOutcome)) :
    Except String (List Nat) :=
  if d.isEmpty then .ok []
  else if (verifiedOf d).isEmpty then
    .error "component could not be verified in any installation"
  else .ok (verifiedOf d)

/-- The component-verification GraphQL queries issued by
`initialize_installations`: none when discovery returned nothing (the method
returns before the loop), one per discovered installation otherwise. -/
def verifyQueries (d : List (Nat × VerifyOutcome)) : List RunAction :=
  if d.isEmpty then [] else d.map (fun e => .verifyQuery e.1)

/-- One run of the notifier with all external outcomes fixed.
`catalogOk` is whether `load_catalog_info` succeeds; `discovered` pairs each
discovered installation with its verification outcome; `prelimInProgress`,
`prelimSuccess` and `prelimFailed` are whether the credential check and the
description construction (git and `forge whoami` calls) inside the respective
`send_deployment_event` call succeed; `ipOutcome` gives each installation its
IN_PROGRESS delivery outcome; `deployOk` is the exit status of the external
deploy command; `migrateOk` is whether `run_sql_migrate` returns without
raising (local variant only).  Dry-run mode is not modelled. -/
structure World where
  catalogOk : Bool
  discovered : List (Nat × VerifyOutcome)
  prelimInProgress : Bool
  ipOutcome : Nat → InProgressOutcome
  deployOk : Bool
  migrateOk : Bool
  prelimSuccess : Bool
  prelimFailed : Bool

/-- The IN_PROGRESS phase as entered through `send_deployment_event`
('IN_PROGRESS') in both scripts: with no installations the phase is a no-op;
a credential or description failure raises before any send; otherwise the
sends happen per `send_in_progress_notifications`.  Returns the phase result
and the actions performed (acknowledged IN_PROGRESS sends, then compensating
FAILED sends, in order). -/
def inProgressPhase (verified : List Nat) (prelim : Bool)
    (out : Nat → InProgressOutcome) : Except String Unit × List RunAction :=
  if verified.isEmpty then (.ok (), [])
  else if !prelim then (.error "missing credentials or description failure", [])
  else
    ((send_in_progress_notifications (verified.map (fun i => (i, out i)))).1,
      (successesOf (verified.map (fun i => (i, out i)))).map .inProgressSent
        ++ (send_in_progress_notifications (verified.map (fun i => (i, out i)))).2.map
            .compensatingFailed)

/-- A terminal-state `send_deployment_event` call (best-effort phase): the
phase is entered (`terminalPhase st`), returns at once when there are no
installations, attempts one send per installation when the credential check
and description construction succeed, and raises before any send otherwise.
Per-installation failures are caught inside `send_final_notifications`, so
the attempts do not depend on their outcomes. -/
def terminalPhaseActions (st : DeployState) (verified : List Nat)
    (prelim : Bool) : List RunAction :=
  .terminalPhase st ::
    (if verified.isEmpty then [] else
      if prelim then verified.map (.terminalSent st) else [])

/-- From src/scripts/local_deployment_notifier.py, `deploy` (lines 1270-1337):
the orchestrator with the SQL-migration step and the
`should_send_failed` logic of its exception handler, which sends FAILED
whenever IN_PROGRESS was sent and either the deploy failed or any
post-deployment step (SQL migration or the SUCCESSFUL send itself) raised. -/
def deploy_local (w : World) : List RunAction :=
  if !w.catalogOk then [.fatalExit]
  else
    match initialize_installations w.discovered with
    | .error _ => verifyQueries w.discovered ++ [.fatalExit]
    | .ok verified =>
      match (inProgressPhase verified w.prelimInProgress w.ipOutcome).1 with
      | .error _ => verifyQueries w.discovered
          ++ (inProgressPhase verified w.prelimInProgress w.ipOutcome).2 ++ [.fatalExit]
      | .ok _ =>
        if !w.deployOk then
          verifyQueries w.discovered
            ++ (inProgressPhase verified w.prelimInProgress w.ipOutcome).2
            ++ [.deployStarted]
            ++ terminalPhaseActions .failed verified w.prelimFailed ++ [.fatalExit]
        else if !verified.isEmpty && !w.migrateOk then
          verifyQueries w.discovered
            ++ (inProgressPhase verified w.prelimInProgress w.ipOutcome).2
            ++ [.deployStarted, .migrateStarted]
            ++ terminalPhaseActions .failed verified w.prelimFailed ++ [.fatalExit]
        else if !verified.isEmpty && !w.prelimSuccess then
          verifyQueries w.discovered
            ++ (inProgressPhase verified w.prelimInProgress w.ipOutcome).2
            ++ [.deployStarted, .migrateStarted, .terminalPhase .successful]
            ++ terminalPhaseActions .failed verified w.prelimFailed ++ [.fatalExit]
        else
          verifyQueries w.discovered
            ++ (inProgressPhase verified w.prelimInProgress w.ipOutcome).2
            ++ [.deployStarted, .migrateStarted]
            ++ terminalPhaseActions .successful verified w.prelimSuccess ++ [.okExit]

/-- From src/scripts/local-forge-deployment-notifier.py, `deploy` (lines
953-1001): no migration step, and the exception handler sends FAILED only
when the deploy itself failed; when the deploy succeeded but the SUCCESSFUL
send raised, it logs and exits without sending FAILED. -/
def deploy_forge (w : World) : List RunAction :=
  if !w.catalogOk then [.fatalExit]
  else
    match initialize_installations w.discovered with
    | .error _ => verifyQueries w.discovered ++ [.fatalExit]
    | .ok verified =>
      match (inProgressPhase verified w.prelimInProgress w.ipOutcome).1 with
      | .error _ => verifyQueries w.discovered
          ++ (inProgressPhase verified w.prelimInProgress w.ipOutcome).2 ++ [.fatalExit]
      | .ok _ =>
        if !w.deployOk then
          verifyQueries w.discovered
            ++ (inProgressPhase verified w.prelimInProgress w.ipOutcome).2
            ++ [.deployStarted]
            ++ terminalPhaseActions .failed verified w.prelimFailed ++ [.fatalExit]
        else if !verified.isEmpty && !w.prelimSuccess then
          verifyQueries w.discovered
            ++ (inProgressPhase verified w.prelimInProgress w.ipOutcome).2
            ++ [.deployStarted, .terminalPhase .successful, .fatalExit]
        else
          verifyQueries w.discovered
            ++ (inProgressPhase verified w.prelimInProgress w.ipOutcome).2
            ++ [.deployStarted]
            ++ terminalPhaseActions .successful verified w.prelimSuccess ++ [.okExit]

/-- Scan a trace for a FAILED event sent to some installation at or after the
point where the SUCCESSFUL send phase was entered. -/
def failedAfterSuccessAttempt (tr : List RunAction) : Bool :=
  (tr.dropWhile (fun a => a != .terminalPhase .successful)).any
    (fun a => match a with | .terminalSent .failed _ => true | _ => false)

/-! ### Version extraction in `run_forge_deploy` (local variant) -/

/-- Greedy digit run: the longest all-digit leading segment of the list and the
remainder.  This is what one `\d+` group consumes in the pattern
`\[(\d+\.\d+\.\d+)\]`, since a digit and the following literal never overlap.
Python `\d` is modelled as the ASCII digits. -/
def takeDigits : List Char → List Char × List Char
  | [] => ([], [])
  | c :: r =>
    if c.isDigit then
      let p := takeDigits r
      (c :: p.1, p.2)
    else ([], c :: r)

/-- One `\d+` group followed by a required literal: the digits and the rest,
`none` when there is no leading digit. -/
def parseSeg (l : List Char) : Option (List Char × List Char) :=
  let p := takeDigits l
  if p.1.isEmpty then none else some p

/-- Whether the pattern `\[(\d+\.\d+\.\d+)\]` matches at the head of the list;
on success, the captured group `\d+\.\d+\.\d+` (without the brackets). -/
def parseVersionAt (l : List Char) : Option (List Char) :=
  match l with
  | [] => none
  | c :: r =>
    if c = '[' then
      match parseSeg r with
      | none => none
      | some (d1, r1) =>
        match r1 with
        | [] => none
        | c2 :: r2 =>
          if c2 = '.' then
            match parseSeg r2 with
            | none => none
            | some (d2, r3) =>
              match r3 with
              | [] => none
              | c3 :: r4 =>
                if c3 = '.' then
                  match parseSeg r4 with
                  | none => none
                  | some (d3, r5) =>
                    match r5 with
                    | [] => none
                    | c4 :: _ =>
                      if c4 = ']' then some (d1 ++ '.' :: (d2 ++ '.' :: d3))
                      else none
                else none
          else none
    else none

/-- `re.search(r'\[(\d+\.\d+\.\d+)\]', text)`: the leftmost position where the
pattern matches, returning the captured group. -/
def findVersion : List Char → Option (List Char)
  | [] => none
  | c :: rest =>
    match parseVersionAt (c :: rest) with
    | some v => some v
    | none => findVersion rest

/-- Version extraction over a string, as in `run_forge_deploy` lines 1097-1101
of src/scripts/local_deployment_notifier.py. -/
def extract_version (s : String) : Option String :=
  (findVersion s.data).map String.mk

/-- From src/scripts/local_deployment_notifier.py line 1093: the text scanned
for the version is `stdout + "\n" + stderr if stderr else stdout`. -/
def combinedOutput (stdout stderr : String) : String :=
  if stderr ≠ "" then stdout ++ "\n" ++ stderr else stdout

/-- From src/scripts/local_deployment_notifier.py, `run_forge_deploy` (lines
1083-1112): scan the combined output for a version (a missing match only
prints a warning), then raise exactly when the subprocess exited nonzero.
Returns the extracted `deployed_version` on success. -/
def run_forge_deploy (success : Bool) (stdout stderr : String) :
    Except String (Option String) :=
  let v := extract_version (combinedOutput stdout stderr)
  if success then .ok v else .error "forge deploy command failed"

/-- Specification-level predicate, worded from the claim: the text contains a
bracketed three-part dot-separated numeric token, i.e. it decomposes as
`a ++ "[" ++ d1 ++ "." ++ d2 ++ "." ++ d3 ++ "]" ++ b` with each `di` a
nonempty digit string. -/
def hasVersionToken (l : List Char) : Prop :=
  ∃ a d1 d2 d3 b : List Char,
    l = a ++ '[' :: (d1 ++ '.' :: (d2 ++ '.' :: (d3 ++ ']' :: b)))
    ∧ d1 ≠ [] ∧ d2 ≠ [] ∧ d3 ≠ []
    ∧ (∀ c ∈ d1, c.isDigit = true)
    ∧ (∀ c ∈ d2, c.isDigit = true)
    ∧ (∀ c ∈ d3, c.isDigit = true)

/-! ### The sibling file-sync tool

A filesystem is a finite association list from file paths (segment lists) to
file contents; the first entry for a path wins.  Directories are implicit:
a directory exists when some file lies under it. -/

/-- File paths as segment lists. -/
abbrev FilePath0 := List String

/-- Association-list filesystem: path and content pairs. -/
abbrev FileSystem := List (FilePath0 × String)

/-- Whether path `p` lies under directory `d` (`d` a segment-wise leading part
of `p`, including `p = d` itself). -/
def underDir : FilePath0 → FilePath0 → Bool
  | [], _ => true
  | _, [] => false
  | a :: d, b :: p => a == b && underDir d p

/-- Content of the file at `p`, if any. -/
def lookupFS (fs : FileSystem) (p : FilePath0) : Option String :=
  (fs.find? (fun e => e.1 == p)).map (fun e => e.2)

/-- `target_path.exists()`: some file lies at or under the directory. -/
def existsPath (fs : FileSystem) (d : FilePath0) : Bool :=
  fs.any (fun e => underDir d e.1)

/-- `shutil.rmtree(target_path)`: drop every file under the directory. -/
def rmtree (d : FilePath0) (fs : FileSystem) : FileSystem :=
  fs.filter (fun e => !underDir d e.1)

/-- The files under `src`, rebased under `tgt`: what `shutil.copytree` writes. -/
def copiedEntries (src tgt : FilePath0) (fs : FileSystem) : FileSystem :=
  fs.filterMap (fun e =>
    if underDir src e.1 then some (tgt ++ e.1.drop src.length, e.2) else none)

/-- `shutil.copytree(source_path, target_path, dirs_exist_ok=True)`: every file
under `src` also appears, rebased under `tgt`, shadowing what was there. -/
def copytree (src tgt : FilePath0) (fs : FileSystem) : FileSystem :=
  copiedEntries src tgt fs ++ fs

/-- From src/copy-files-between-siblings.py, `copy_directory_to_directory`
(lines 175-186): remove the target directory when it exists, then copy the
source directory to it. -/
def copy_directory_to_directory (src tgt : FilePath0) (fs : FileSystem) :
    FileSystem :=
  let fs1 := if existsPath fs tgt then rmtree tgt fs else fs
  copytree src tgt fs1


/-- Whether an `Except` result is an error (a raised exception). -/
def exceptIsError {e a : Type} : Except e a → Bool
  | .error _ => true
  | .ok _ => false

/-- Concrete notifier state for demonstrating the C1 sequence-number bug:
the run started at millisecond 1000 and the base sequence number
was captured at that same millisecond. -/
def c1NotifierState : NotifierState :=
  { environment := "production", componentSlug := "svc", githubRepo := none,
    deploymentRunId := "deploy-1000",
    deploymentStartTime := 1000, baseSequenceNumber := 1000 }

/-- Concrete git information for the C1 demonstration. -/
def c1GitInfo : GitInfo := { hash := "abc1234", branch := "main" }

/-- Concrete world for the C3 counterexample: one verified installation, an
IN_PROGRESS send and deploy that succeed, a SUCCESSFUL send phase that raises
(for instance because `forge whoami` fails while building the description),
and a FAILED phase whose description construction succeeds. -/
def c3World : World :=
  { catalogOk := true
    discovered := [(1, .verified)]
    prelimInProgress := true
    ipOutcome := fun _ => .delivered
    deployOk := true
    migrateOk := true
    prelimSuccess := false
    prelimFailed := true }

/-- Concrete world for the C5 witness: two discovered installations, neither
of which verifies. -/
def c5World : World :=
  { catalogOk := true
    discovered := [(1, .notFound), (2, .raised)]
    prelimInProgress := true
    ipOutcome := fun _ => .delivered
    deployOk := true
    migrateOk := true
    prelimSuccess := true
    prelimFailed := true }

/-- Concrete world for the C6 witness: one of two installations verifies and
its IN_PROGRESS send is acknowledged, so the deploy command runs. -/
def c6World : World :=
  { catalogOk := true
    discovered := [(1, .verified), (2, .notFound)]
    prelimInProgress := true
    ipOutcome := fun _ => .delivered
    deployOk := true
    migrateOk := true
    prelimSuccess := true
    prelimFailed := true }

/-! ### Helper lemmas -/

/-- The truncation step never produces more than 255 characters. -/
theorem truncate_description_length_le (s : String) :
    (truncate_description s).length ≤ 255 := by
  unfold truncate_description
  split
  · rw [String.length_append]
    have h2 : (String.mk (s.data.take 252)).length = (s.data.take 252).length := rfl
    have h3 : ("..." : String).length = 3 := rfl
    rw [h2, h3, List.length_take]
    have := Nat.min_le_left 252 s.data.length
    omega
  · omega

/-! ### Claim theorems -/

/-- C7: the environment classifier is total — every input maps to one of the
five valid types, any string whose uppercasing is a category name maps to that
name (case-insensitive matching), and everything else maps to "UNMAPPED";
being a Lean function, it raises no error on any input. -/
theorem c7_environment_classifier_total (s : String) :
    validate_and_map_environment s ∈ VALID_ENVIRONMENT_TYPES
    ∧ (py_upper s ∈ VALID_ENVIRONMENT_TYPES →
        validate_and_map_environment s = py_upper s)
    ∧ (py_upper s ∉ VALID_ENVIRONMENT_TYPES →
        validate_and_map_environment s = "UNMAPPED") := by
  unfold validate_and_map_environment
  by_cases h : py_upper s ∈ VALID_ENVIRONMENT_TYPES
  · simp [h]
  · simp [h]
    decide

/-- Witness for C7 at the concrete input "pRoDuction". -/
theorem c7_environment_classifier_total_witness :
    validate_and_map_environment "pRoDuction" = py_upper "pRoDuction"
    ∧ py_upper "pRoDuction" = "PRODUCTION" :=
  ⟨(c7_environment_classifier_total "pRoDuction").2.1 (by decide), by decide⟩

/-- C9: every description either fits in 255 characters or is cut to its
first 252 characters plus "...", so the result is always at most 255
characters long, for both implementations. -/
theorem c9_description_length_bound (state : DeployState) (version : Option String)
    (branch gitHash forgeUser : String) (uncommitted : List String) (s : String) :
    (create_deployment_description_local state version branch gitHash forgeUser).length ≤ 255
    ∧ (create_deployment_description_forge branch gitHash forgeUser uncommitted).length ≤ 255
    ∧ (255 < s.length → truncate_description s = String.mk (s.data.take 252) ++ "...")
    ∧ (s.length ≤ 255 → truncate_description s = s) := by
  refine ⟨truncate_description_length_le _, truncate_description_length_le _, ?_, ?_⟩
  · intro h
    unfold truncate_description
    simp [h]
  · intro h
    unfold truncate_description
    simp [Nat.not_lt.2 h]

set_option maxRecDepth 4000 in
/-- Witness for C9: a 300-character description is truncated, and a short
description is within the bound. -/
theorem c9_description_length_bound_witness :
    truncate_description (String.mk (List.replicate 300 'a'))
      = String.mk ((String.mk (List.replicate 300 'a')).data.take 252) ++ "..."
    ∧ (create_deployment_description_local .inProgress none "main" "abc1234" "user").length ≤ 255 :=
  ⟨(c9_description_length_bound .inProgress none "main" "abc1234" "user" []
      (String.mk (List.replicate 300 'a'))).2.2.1 (by decide),
   (c9_description_length_bound .inProgress none "main" "abc1234" "user" [] "").1⟩

/-- C4: within one run (fixed notifier state, git state and catalog config),
every payload of either implementation carries the run id as `pipelineId`,
the same `url`, and the run start time as `startedAt`, regardless of state,
installation or call time; `completedAt` is present iff the state is not
IN_PROGRESS. -/
theorem c4_payload_run_invariants (st : NotifierState)
    (cid1 cid2 : String) (comp1 comp2 : Option String) (s1 s2 : DeployState)
    (d1 d2 : String) (git : GitInfo) (fh : Option String) (t1 t2 : Nat) :
    ((create_event_payload_local st cid1 comp1 s1 d1 git fh t1).pipelineId
        = (create_event_payload_local st cid2 comp2 s2 d2 git fh t2).pipelineId
      ∧ (create_event_payload_local st cid1 comp1 s1 d1 git fh t1).pipelineId
        = st.deploymentRunId
      ∧ (create_event_payload_local st cid1 comp1 s1 d1 git fh t1).url
        = (create_event_payload_local st cid2 comp2 s2 d2 git fh t2).url
      ∧ (create_event_payload_local st cid1 comp1 s1 d1 git fh t1).startedAt
        = (create_event_payload_local st cid2 comp2 s2 d2 git fh t2).startedAt
      ∧ (create_event_payload_local st cid1 comp1 s1 d1 git fh t1).startedAt
        = st.deploymentStartTime
      ∧ ((create_event_payload_local st cid1 comp1 s1 d1 git fh t1).completedAt.isSome
          ↔ s1 ≠ .inProgress))
    ∧ ((create_event_payload_forge st cid1 s1 d1 git fh t1).pipelineId
        = (create_event_payload_forge st cid2 s2 d2 git fh t2).pipelineId
      ∧ (create_event_payload_forge st cid1 s1 d1 git fh t1).pipelineId
        = st.deploymentRunId
      ∧ (create_event_payload_forge st cid1 s1 d1 git fh t1).url
        = (create_event_payload_forge st cid2 s2 d2 git fh t2).url
      ∧ (create_event_payload_forge st cid1 s1 d1 git fh t1).startedAt
        = (create_event_payload_forge st cid2 s2 d2 git fh t2).startedAt
      ∧ (create_event_payload_forge st cid1 s1 d1 git fh t1).startedAt
        = st.deploymentStartTime
      ∧ ((create_event_payload_forge st cid1 s1 d1 git fh t1).completedAt.isSome
          ↔ s1 ≠ .inProgress)) := by
  refine ⟨⟨rfl, rfl, rfl, rfl, rfl, ?_⟩, ⟨rfl, rfl, rfl, rfl, rfl, ?_⟩⟩
  · cases s1 <;> simp [create_event_payload_local]
  · cases s1 <;> simp [create_event_payload_forge]


/-- C1: when the IN_PROGRESS payload and the terminal payload are created
within the same millisecond (clock reading 1000 for both), the forge
variant produces EQUAL sequence numbers — not strictly greater, contradicting
the claim and the comment in its own source ("IN_PROGRESS < SUCCESSFUL/FAILED",
local-forge-deployment-notifier.py line 677) — while the local variant clamps
the terminal sequence number to base + 1 and does satisfy the claim. -/
theorem c1_forge_sequence_not_increasing_same_millisecond :
    ((create_event_payload_forge c1NotifierState "cloud" .successful "d" c1GitInfo
        none 1000).sequenceNumber
      = (create_event_payload_forge c1NotifierState "cloud" .inProgress "d" c1GitInfo
        none 1000).sequenceNumber)
    ∧ ¬((create_event_payload_forge c1NotifierState "cloud" .successful "d" c1GitInfo
        none 1000).sequenceNumber
      > (create_event_payload_forge c1NotifierState "cloud" .inProgress "d" c1GitInfo
        none 1000).sequenceNumber)
    ∧ ((create_event_payload_forge c1NotifierState "cloud" .successful "d" c1GitInfo
        none 1000).updateSequenceNumber
      = (create_event_payload_forge c1NotifierState "cloud" .inProgress "d" c1GitInfo
        none 1000).updateSequenceNumber)
    ∧ ((create_event_payload_local c1NotifierState "cloud" none .successful "d" c1GitInfo
        none 1000).sequenceNumber
      > (create_event_payload_local c1NotifierState "cloud" none .inProgress "d" c1GitInfo
        none 1000).sequenceNumber) := by
  refine ⟨rfl, ?_, rfl, ?_⟩ <;> decide

/-- The loop accumulators of `send_in_progress_notifications` are the three
outcome-filtered sublists of the installation list, in loop order. -/
theorem classify_in_progress_eq (xs : List (Nat × InProgressOutcome)) :
    classify_in_progress xs = (successesOf xs, setupFailuresOf xs, otherFailuresOf xs) := by
  induction xs with
  | nil => rfl
  | cons p rest ih =>
    obtain ⟨i, o⟩ := p
    cases o <;>
      simp [classify_in_progress, successesOf, setupFailuresOf, otherFailuresOf,
        InProgressOutcome.acked, List.filterMap_cons, ih]

/-- No installation lands in `needs_setup` iff none had a setup failure. -/
theorem setupFailuresOf_eq_nil_iff (xs : List (Nat × InProgressOutcome)) :
    setupFailuresOf xs = [] ↔ ∀ p ∈ xs, p.2 ≠ .setupFailed := by
  simp only [setupFailuresOf, List.filterMap_eq_nil_iff]
  constructor
  · intro h p hp hne
    have := h p hp
    simp [hne] at this
  · intro h p hp
    simp [h p hp]

/-- No installation lands in `failures` iff none had an other failure. -/
theorem otherFailuresOf_eq_nil_iff (xs : List (Nat × InProgressOutcome)) :
    otherFailuresOf xs = [] ↔ ∀ p ∈ xs, p.2 ≠ .otherFailure := by
  simp only [otherFailuresOf, List.filterMap_eq_nil_iff]
  constructor
  · intro h p hp hne
    have := h p hp
    simp [hne] at this
  · intro h p hp
    simp [h p hp]

/-- C2 (amended): the IN_PROGRESS phase raises a fatal error exactly when some
installation failed (for either failure kind), but compensating FAILED events
— exactly one per prior success, in order — are attempted only when no
installation had an event-source setup failure and some installation failed
for another reason; when any setup failure occurred the phase raises with no
compensating sends at all. -/
theorem c2_compensation_exactly_for_non_setup_failures
    (xs : List (Nat × InProgressOutcome)) :
    (exceptIsError (send_in_progress_notifications xs).1 = true
      ↔ ∃ p ∈ xs, p.2 = .setupFailed ∨ p.2 = .otherFailure)
    ∧ (setupFailuresOf xs = [] → otherFailuresOf xs ≠ [] →
        (send_in_progress_notifications xs).2 = successesOf xs)
    ∧ (setupFailuresOf xs ≠ [] → (send_in_progress_notifications xs).2 = [])
    ∧ (setupFailuresOf xs = [] → otherFailuresOf xs = [] →
        send_in_progress_notifications xs = (.ok (), [])) := by
  refine ⟨?_, ?_, ?_, ?_⟩
  · constructor
    · intro h
      by_contra hno
      push_neg at hno
      have h1 : setupFailuresOf xs = [] :=
        (setupFailuresOf_eq_nil_iff xs).2 (fun p hp => (hno p hp).1)
      have h2 : otherFailuresOf xs = [] :=
        (otherFailuresOf_eq_nil_iff xs).2 (fun p hp => (hno p hp).2)
      unfold send_in_progress_notifications at h
      rw [classify_in_progress_eq xs] at h
      simp [h1, h2, exceptIsError] at h
    · rintro ⟨p, hp, hor⟩
      unfold send_in_progress_notifications
      rw [classify_in_progress_eq xs]
      rcases hor with h | h
      · have hne : setupFailuresOf xs ≠ [] :=
          fun hnil => ((setupFailuresOf_eq_nil_iff xs).1 hnil p hp) h
        simp [List.isEmpty_iff, hne, exceptIsError]
      · by_cases h1 : setupFailuresOf xs = []
        · have h2 : otherFailuresOf xs ≠ [] :=
            fun hnil => ((otherFailuresOf_eq_nil_iff xs).1 hnil p hp) h
          simp [List.isEmpty_iff, h1, h2, exceptIsError]
        · simp [List.isEmpty_iff, h1, exceptIsError]
  · intro h1 h2
    unfold send_in_progress_notifications
    rw [classify_in_progress_eq xs]
    simp [List.isEmpty_iff, h1, h2]
  · intro h1
    unfold send_in_progress_notifications
    rw [classify_in_progress_eq xs]
    simp [List.isEmpty_iff, h1]
  · intro h1 h2
    unfold send_in_progress_notifications
    rw [classify_in_progress_eq xs]
    simp [List.isEmpty_iff, h1, h2]

/-- Witness for C2: one success then one non-setup failure yields exactly one
compensating FAILED send, to the successful installation. -/
theorem c2_compensation_exactly_for_non_setup_failures_witness :
    (send_in_progress_notifications [(1, .delivered), (2, .otherFailure)]).2
      = successesOf [(1, .delivered), (2, .otherFailure)] :=
  (c2_compensation_exactly_for_non_setup_failures
    [(1, .delivered), (2, .otherFailure)]).2.1 (by decide) (by decide)

/-- C2 counterexample: with one acknowledged installation and one whose
event-source creation failed, the phase raises a fatal error but attempts NO
compensating FAILED send to the prior success — the claim requires exactly
one. -/
theorem c2_setup_failure_skips_compensation :
    exceptIsError
        (send_in_progress_notifications [(1, .delivered), (2, .setupFailed)]).1 = true
    ∧ successesOf [(1, .delivered), (2, .setupFailed)] = [1]
    ∧ (send_in_progress_notifications [(1, .delivered), (2, .setupFailed)]).2 = [] := by
  refine ⟨rfl, rfl, rfl⟩

/-- When `initialize_installations` succeeds, its result is exactly the list
of verified installations. -/
theorem initialize_installations_ok {d : List (Nat × VerifyOutcome)} {v : List Nat}
    (h : initialize_installations d = .ok v) : v = verifiedOf d := by
  unfold initialize_installations at h
  split at h
  · rename_i hd
    rw [List.isEmpty_iff] at hd
    injection h with h
    subst hd
    simp [verifiedOf, h.symm]
  · split at h
    · exact absurd h (by simp)
    · injection h with h
      exact h.symm

/-- Every action the IN_PROGRESS phase emits is an acknowledged IN_PROGRESS
send or a compensating FAILED send. -/
theorem inProgressPhase_actions_shape (verified : List Nat) (prelim : Bool)
    (out : Nat → InProgressOutcome) (a : RunAction)
    (h : a ∈ (inProgressPhase verified prelim out).2) :
    (∃ i, a = .inProgressSent i) ∨ (∃ i, a = .compensatingFailed i) := by
  unfold inProgressPhase at h
  split at h
  · simp at h
  · split at h
    · simp at h
    · simp only [List.mem_append, List.mem_map] at h
      rcases h with ⟨i, _, rfl⟩ | ⟨i, _, rfl⟩
      · exact .inl ⟨i, rfl⟩
      · exact .inr ⟨i, rfl⟩

/-- Every action in `verifyQueries` is a component-verification query. -/
theorem verifyQueries_shape (d : List (Nat × VerifyOutcome)) (a : RunAction)
    (h : a ∈ verifyQueries d) : ∃ i, a = .verifyQuery i := by
  unfold verifyQueries at h
  split at h
  · simp at h
  · simp only [List.mem_map] at h
    obtain ⟨e, _, rfl⟩ := h
    exact ⟨e.1, rfl⟩

/-- Every action a terminal send phase emits is its phase marker or a terminal
send of its own state. -/
theorem terminalPhaseActions_shape (st : DeployState) (verified : List Nat)
    (prelim : Bool) (a : RunAction)
    (h : a ∈ terminalPhaseActions st verified prelim) :
    a = .terminalPhase st ∨ ∃ i, a = .terminalSent st i := by
  unfold terminalPhaseActions at h
  rcases List.mem_cons.1 h with h | h
  · exact .inl h
  · split at h
    · simp at h
    · split at h
      · simp only [List.mem_map] at h
        obtain ⟨i, _, rfl⟩ := h
        exact .inr ⟨i, rfl⟩
      · simp at h

/-- If the IN_PROGRESS phase returned without raising, the event was
acknowledged for every installation in the set it was given. -/
theorem inProgressPhase_ok_acked (verified : List Nat) (prelim : Bool)
    (out : Nat → InProgressOutcome)
    (h : (inProgressPhase verified prelim out).1 = .ok ()) :
    ∀ i ∈ verified, (out i).acked = true := by
  intro i hi
  unfold inProgressPhase at h
  split at h
  · rename_i hv
    rw [List.isEmpty_iff] at hv
    subst hv
    simp at hi
  · split at h
    · simp at h
    · by_cases h1 : setupFailuresOf (verified.map (fun i => (i, out i))) = []
      · by_cases h2 : otherFailuresOf (verified.map (fun i => (i, out i))) = []
        · have hmem : (i, out i) ∈ verified.map (fun i => (i, out i)) :=
            List.mem_map_of_mem _ hi
          have hs := (setupFailuresOf_eq_nil_iff _).1 h1 _ hmem
          have ho := (otherFailuresOf_eq_nil_iff _).1 h2 _ hmem
          simp only at hs ho
          cases hc : out i
          · rfl
          · rfl
          · exact absurd hc hs
          · exact absurd hc ho
        · exfalso
          unfold send_in_progress_notifications at h
          rw [classify_in_progress_eq] at h
          simp [List.isEmpty_iff, h1, h2] at h
      · exfalso
        unfold send_in_progress_notifications at h
        rw [classify_in_progress_eq] at h
        simp [List.isEmpty_iff, h1] at h

/-- The verification queries never contain the deploy action. -/
theorem deployStarted_not_mem_verifyQueries (d : List (Nat × VerifyOutcome)) :
    RunAction.deployStarted ∉ verifyQueries d := by
  intro h
  obtain ⟨i, hi⟩ := verifyQueries_shape d _ h
  exact RunAction.noConfusion hi

/-- The IN_PROGRESS phase never performs the deploy action. -/
theorem deployStarted_not_mem_inProgressPhase (verified : List Nat) (prelim : Bool)
    (out : Nat → InProgressOutcome) :
    RunAction.deployStarted ∉ (inProgressPhase verified prelim out).2 := by
  intro h
  rcases inProgressPhase_actions_shape _ _ _ _ h with ⟨i, hi⟩ | ⟨i, hi⟩ <;>
    exact RunAction.noConfusion hi

/-- C6: in either orchestrator, if the external deploy command was started
then the IN_PROGRESS event had been acknowledged by every installation in the
verified set (vacuously including the empty set). -/
theorem c6_deploy_only_after_in_progress_acked (w : World) :
    (RunAction.deployStarted ∈ deploy_local w →
      ∀ i ∈ verifiedOf w.discovered, (w.ipOutcome i).acked = true)
    ∧ (RunAction.deployStarted ∈ deploy_forge w →
      ∀ i ∈ verifiedOf w.discovered, (w.ipOutcome i).acked = true) := by
  constructor
  · intro h
    unfold deploy_local at h
    split at h
    · simp at h
    · split at h
      · exact absurd h (by
          intro hmem
          rw [List.mem_append] at hmem
          rcases hmem with hm | hm
          · exact deployStarted_not_mem_verifyQueries _ hm
          · simp at hm)
      · rename_i verified heq
        split at h
        · exact absurd h (by
            intro hmem
            simp only [List.mem_append] at hmem
            rcases hmem with (hm | hm) | hm
            · exact deployStarted_not_mem_verifyQueries _ hm
            · exact deployStarted_not_mem_inProgressPhase _ _ _ hm
            · simp at hm)
        · rename_i u hphase
          intro i hi
          have hv := initialize_installations_ok heq
          cases u
          exact inProgressPhase_ok_acked _ _ _ hphase i (by rw [← hv] at hi; exact hi)
  · intro h
    unfold deploy_forge at h
    split at h
    · simp at h
    · split at h
      · exact absurd h (by
          intro hmem
          rw [List.mem_append] at hmem
          rcases hmem with hm | hm
          · exact deployStarted_not_mem_verifyQueries _ hm
          · simp at hm)
      · rename_i verified heq
        split at h
        · exact absurd h (by
            intro hmem
            simp only [List.mem_append] at hmem
            rcases hmem with (hm | hm) | hm
            · exact deployStarted_not_mem_verifyQueries _ hm
            · exact deployStarted_not_mem_inProgressPhase _ _ _ hm
            · simp at hm)
        · rename_i u hphase
          intro i hi
          have hv := initialize_installations_ok heq
          cases u
          exact inProgressPhase_ok_acked _ _ _ hphase i (by rw [← hv] at hi; exact hi)

/-- Witness for C6: a world where the deploy command does run, so the
acknowledgment of every verified installation follows. -/
theorem c6_deploy_only_after_in_progress_acked_witness :
    ∀ i ∈ verifiedOf c6World.discovered, (c6World.ipOutcome i).acked = true :=
  (c6_deploy_only_after_in_progress_acked c6World).1 (by decide)

/-- A trace that never enters the SUCCESSFUL send phase trivially sends no
FAILED event after it. -/
theorem failedAfterSuccessAttempt_eq_false_of_no_marker (tr : List RunAction)
    (h : RunAction.terminalPhase .successful ∉ tr) :
    failedAfterSuccessAttempt tr = false := by
  unfold failedAfterSuccessAttempt
  have hdrop : tr.dropWhile (fun a => a != .terminalPhase .successful) = [] := by
    induction tr with
    | nil => rfl
    | cons a tl ih =>
      have ha : a ≠ .terminalPhase .successful :=
        fun hh => h (hh ▸ List.mem_cons_self _ _)
      rw [List.dropWhile_cons]
      simp only [ha, bne_iff_ne, ne_eq, not_false_eq_true, if_true]
      exact ih (fun hm => h (List.mem_cons_of_mem _ hm))
  rw [hdrop]
  rfl

/-- A trace containing no FAILED send at all sends none after the SUCCESSFUL
phase either. -/
theorem failedAfterSuccessAttempt_eq_false_of_no_failed_send (tr : List RunAction)
    (h : ∀ i, RunAction.terminalSent .failed i ∉ tr) :
    failedAfterSuccessAttempt tr = false := by
  unfold failedAfterSuccessAttempt
  rw [List.any_eq_false]
  intro a ha
  have hmem : a ∈ tr :=
    (List.dropWhile_sublist (fun a => a != RunAction.terminalPhase .successful)).mem ha
  cases a with
  | terminalSent st i =>
    cases st with
    | failed => exact absurd hmem (h i)
    | inProgress => simp
    | successful => simp
  | verifyQuery i => simp
  | inProgressSent i => simp
  | compensatingFailed i => simp
  | deployStarted => simp
  | migrateStarted => simp
  | terminalPhase st => simp
  | fatalExit => simp
  | okExit => simp

/-- Verification queries contain no SUCCESSFUL phase marker. -/
theorem marker_not_mem_verifyQueries (d : List (Nat × VerifyOutcome)) :
    RunAction.terminalPhase .successful ∉ verifyQueries d := by
  intro h
  obtain ⟨i, hi⟩ := verifyQueries_shape _ _ h
  exact RunAction.noConfusion hi

/-- The IN_PROGRESS phase emits no SUCCESSFUL phase marker. -/
theorem marker_not_mem_inProgressPhase (v : List Nat) (p : Bool)
    (o : Nat → InProgressOutcome) :
    RunAction.terminalPhase .successful ∉ (inProgressPhase v p o).2 := by
  intro h
  rcases inProgressPhase_actions_shape _ _ _ _ h with ⟨i, hi⟩ | ⟨i, hi⟩ <;>
    exact RunAction.noConfusion hi

/-- The FAILED send phase emits no SUCCESSFUL phase marker. -/
theorem marker_not_mem_terminalFailed (vs : List Nat) (pr : Bool) :
    RunAction.terminalPhase .successful ∉ terminalPhaseActions .failed vs pr := by
  intro h
  rcases terminalPhaseActions_shape _ _ _ _ h with hi | ⟨i, hi⟩
  · simp at hi
  · exact RunAction.noConfusion hi

/-- Verification queries contain no FAILED send. -/
theorem failedSent_not_mem_verifyQueries (d : List (Nat × VerifyOutcome)) (i : Nat) :
    RunAction.terminalSent .failed i ∉ verifyQueries d := by
  intro h
  obtain ⟨j, hj⟩ := verifyQueries_shape _ _ h
  exact RunAction.noConfusion hj

/-- The IN_PROGRESS phase emits no terminal FAILED send (its compensating
sends are recorded as `compensatingFailed`, a different action). -/
theorem failedSent_not_mem_inProgressPhase (v : List Nat) (p : Bool)
    (o : Nat → InProgressOutcome) (i : Nat) :
    RunAction.terminalSent .failed i ∉ (inProgressPhase v p o).2 := by
  intro h
  rcases inProgressPhase_actions_shape _ _ _ _ h with ⟨j, hj⟩ | ⟨j, hj⟩ <;>
    exact RunAction.noConfusion hj

/-- The SUCCESSFUL send phase emits no FAILED send. -/
theorem failedSent_not_mem_terminalSuccessful (vs : List Nat) (pr : Bool) (i : Nat) :
    RunAction.terminalSent .failed i ∉ terminalPhaseActions .successful vs pr := by
  intro h
  rcases terminalPhaseActions_shape _ _ _ _ h with hj | ⟨j, hj⟩
  · exact RunAction.noConfusion hj
  · simp at hj

/-- C3 (amended): in the forge variant, no execution ever sends a FAILED event
at or after the point where the SUCCESSFUL send phase was entered — once
SUCCESSFUL has been attempted, FAILED is never sent, even when the SUCCESSFUL
send itself raised.  The local variant violates this (see the accompanying
counterexample), deliberately treating a failed SUCCESSFUL send as a
post-deployment failure. -/
theorem c3_forge_never_failed_after_successful_attempt (w : World) :
    failedAfterSuccessAttempt (deploy_forge w) = false := by
  unfold deploy_forge
  split
  · apply failedAfterSuccessAttempt_eq_false_of_no_marker
    simp
  · split
    · apply failedAfterSuccessAttempt_eq_false_of_no_marker
      intro hmem
      simp [List.mem_append, marker_not_mem_verifyQueries] at hmem
    · rename_i verified heq
      split
      · apply failedAfterSuccessAttempt_eq_false_of_no_marker
        intro hmem
        simp [List.mem_append, marker_not_mem_verifyQueries,
          marker_not_mem_inProgressPhase] at hmem
      · split
        · apply failedAfterSuccessAttempt_eq_false_of_no_marker
          intro hmem
          simp [List.mem_append, marker_not_mem_verifyQueries,
            marker_not_mem_inProgressPhase, marker_not_mem_terminalFailed] at hmem
        · split
          · apply failedAfterSuccessAttempt_eq_false_of_no_failed_send
            intro i hmem
            simp [List.mem_append, failedSent_not_mem_verifyQueries,
              failedSent_not_mem_inProgressPhase] at hmem
          · apply failedAfterSuccessAttempt_eq_false_of_no_failed_send
            intro i hmem
            simp [List.mem_append, failedSent_not_mem_verifyQueries,
              failedSent_not_mem_inProgressPhase,
              failedSent_not_mem_terminalSuccessful] at hmem

/-- C3 counterexample: in the local variant, with one verified installation, a
successful deploy, a SUCCESSFUL send phase that raises and a FAILED phase that
proceeds, a FAILED event is sent to the installation after the SUCCESSFUL
phase was attempted — contradicting the claim that no FAILED is ever sent
once the SUCCESSFUL send has been attempted. -/
theorem c3_failed_sent_after_successful_attempt_local :
    failedAfterSuccessAttempt (deploy_local c3World) = true := by decide

/-- C5: `initialize_installations` succeeds with the empty notification set —
and issues no verification query — when discovery yields nothing; it raises
exactly when installations were discovered but none verified; on success it
keeps exactly the verified installations; when it raises (and the catalog
loaded), both orchestrators perform only the verification queries and then
abort — no IN_PROGRESS event is sent and the deploy command never runs; and
with an empty discovery the whole run sends no event to any installation. -/
theorem c5_initialize_installations_policy (d : List (Nat × VerifyOutcome)) (w : World) :
    (d = [] → initialize_installations d = .ok [] ∧ verifyQueries d = [])
    ∧ (exceptIsError (initialize_installations d) = true ↔ d ≠ [] ∧ verifiedOf d = [])
    ∧ (∀ v, initialize_installations d = .ok v → v = verifiedOf d)
    ∧ (w.catalogOk = true → exceptIsError (initialize_installations w.discovered) = true →
        deploy_local w = verifyQueries w.discovered ++ [.fatalExit]
        ∧ deploy_forge w = verifyQueries w.discovered ++ [.fatalExit]
        ∧ (∀ i, RunAction.inProgressSent i ∉ deploy_local w)
        ∧ RunAction.deployStarted ∉ deploy_local w)
    ∧ (w.discovered = [] →
        (∀ i, RunAction.inProgressSent i ∉ deploy_local w)
        ∧ (∀ st i, RunAction.terminalSent st i ∉ deploy_local w)) := by
  refine ⟨?_, ?_, ?_, ?_, ?_⟩
  · intro h
    subst h
    exact ⟨rfl, rfl⟩
  · by_cases hd : d = []
    · subst hd
      simp [initialize_installations, exceptIsError]
    · by_cases hv : verifiedOf d = []
      · simp [initialize_installations, List.isEmpty_iff, hd, hv, exceptIsError]
      · simp [initialize_installations, List.isEmpty_iff, hd, hv, exceptIsError]
  · intro v h
    exact initialize_installations_ok h
  · intro hc herr
    cases hinit : initialize_installations w.discovered with
    | ok v =>
      rw [hinit] at herr
      simp [exceptIsError] at herr
    | error e =>
      have hdl : deploy_local w = verifyQueries w.discovered ++ [.fatalExit] := by
        unfold deploy_local
        simp [hc, hinit]
      have hdf : deploy_forge w = verifyQueries w.discovered ++ [.fatalExit] := by
        unfold deploy_forge
        simp [hc, hinit]
      refine ⟨hdl, hdf, ?_, ?_⟩
      · intro i hmem
        rw [hdl] at hmem
        rcases List.mem_append.1 hmem with hm | hm
        · obtain ⟨j, hj⟩ := verifyQueries_shape _ _ hm
          exact RunAction.noConfusion hj
        · simp at hm
      · intro hmem
        rw [hdl] at hmem
        rcases List.mem_append.1 hmem with hm | hm
        · exact deployStarted_not_mem_verifyQueries _ hm
        · simp at hm
  · intro hd
    by_cases hc : w.catalogOk
    · have hinit : initialize_installations w.discovered = .ok [] := by
        rw [hd]
        rfl
      have hq : verifyQueries w.discovered = [] := by
        rw [hd]
        rfl
      by_cases hdep : w.deployOk
      · have htr : deploy_local w
            = [.deployStarted, .migrateStarted, .terminalPhase .successful, .okExit] := by
          unfold deploy_local
          simp [hc, hinit, hq, inProgressPhase, terminalPhaseActions, hdep]
        rw [htr]
        constructor
        · intro i hmem
          simp at hmem
        · intro st i hmem
          simp at hmem
      · have htr : deploy_local w
            = [.deployStarted, .terminalPhase .failed, .fatalExit] := by
          unfold deploy_local
          simp [hc, hinit, hq, inProgressPhase, terminalPhaseActions, hdep]
        rw [htr]
        constructor
        · intro i hmem
          simp at hmem
        · intro st i hmem
          simp at hmem
    · have htr : deploy_local w = [.fatalExit] := by
        unfold deploy_local
        simp [hc]
      rw [htr]
      constructor
      · intro i hmem
        simp at hmem
      · intro st i hmem
        simp at hmem

/-- Witness for C5: a world whose two discovered installations both fail
verification aborts after the two verification queries, and an empty
discovery initializes successfully with the empty set. -/
theorem c5_initialize_installations_policy_witness :
    deploy_local c5World = verifyQueries c5World.discovered ++ [.fatalExit]
    ∧ initialize_installations ([] : List (Nat × VerifyOutcome)) = .ok [] :=
  ⟨((c5_initialize_installations_policy c5World.discovered c5World).2.2.2.1 rfl
      (by decide)).1,
   ((c5_initialize_installations_policy ([] : List (Nat × VerifyOutcome)) c5World).1 rfl).1⟩

/-- `takeDigits` splits its input: digits followed by remainder. -/
theorem takeDigits_append_self (l : List Char) :
    (takeDigits l).1 ++ (takeDigits l).2 = l := by
  induction l with
  | nil => rfl
  | cons c r ih =>
    unfold takeDigits
    by_cases h : c.isDigit
    · simp [h, ih]
    · simp [h]

/-- Every character `takeDigits` keeps is a digit. -/
theorem takeDigits_mem (l : List Char) : ∀ c ∈ (takeDigits l).1, c.isDigit = true := by
  induction l with
  | nil =>
    intro c hc
    simp [takeDigits] at hc
  | cons a r ih =>
    intro c hc
    unfold takeDigits at hc
    by_cases h : a.isDigit
    · simp [h] at hc
      rcases hc with rfl | hc
      · exact h
      · exact ih c hc
    · simp [h] at hc

/-- `takeDigits` consumes exactly a leading all-digit block when the next
character is not a digit. -/
theorem takeDigits_of_digits (d : List Char) (y : Char) (r : List Char)
    (hd : ∀ c ∈ d, c.isDigit = true) (hy : y.isDigit = false) :
    takeDigits (d ++ y :: r) = (d, y :: r) := by
  induction d with
  | nil => simp [takeDigits, hy]
  | cons a d ih =>
    have ha : a.isDigit = true := hd a (List.mem_cons_self _ _)
    simp only [List.cons_append]
    unfold takeDigits
    simp [ha, ih (fun c hc => hd c (List.mem_cons_of_mem _ hc))]

/-- What a successful `parseSeg` tells us about its input. -/
theorem parseSeg_sound {l d r : List Char} (h : parseSeg l = some (d, r)) :
    l = d ++ r ∧ d ≠ [] ∧ ∀ c ∈ d, c.isDigit = true := by
  unfold parseSeg at h
  dsimp only at h
  split at h
  · exact absurd h (by simp)
  · rename_i hne
    injection h with h
    have h1 := takeDigits_append_self l
    have h2 := takeDigits_mem l
    rw [h] at h1 h2 hne
    refine ⟨h1.symm, ?_, h2⟩
    intro hnil
    rw [hnil] at hne
    simp at hne

/-- `parseSeg` succeeds on a nonempty digit block followed by a non-digit. -/
theorem parseSeg_complete (d : List Char) (y : Char) (r : List Char)
    (hne : d ≠ []) (hd : ∀ c ∈ d, c.isDigit = true) (hy : y.isDigit = false) :
    parseSeg (d ++ y :: r) = some (d, y :: r) := by
  unfold parseSeg
  rw [takeDigits_of_digits d y r hd hy]
  simp [List.isEmpty_iff, hne]

/-- A successful head match yields a version-token decomposition of the input
with an empty left context. -/
theorem parseVersionAt_sound {l v : List Char} (h : parseVersionAt l = some v) :
    ∃ d1 d2 d3 b : List Char,
      l = '[' :: (d1 ++ '.' :: (d2 ++ '.' :: (d3 ++ ']' :: b)))
      ∧ d1 ≠ [] ∧ d2 ≠ [] ∧ d3 ≠ []
      ∧ (∀ c ∈ d1, c.isDigit = true) ∧ (∀ c ∈ d2, c.isDigit = true)
      ∧ (∀ c ∈ d3, c.isDigit = true) := by
  cases l with
  | nil => simp [parseVersionAt] at h
  | cons c r =>
    by_cases hc : c = '['
    · subst hc
      cases heq1 : parseSeg r with
      | none => simp [parseVersionAt, heq1] at h
      | some p1 =>
        obtain ⟨d1, r1⟩ := p1
        cases r1 with
        | nil => simp [parseVersionAt, heq1] at h
        | cons c2 r2 =>
          by_cases hc2 : c2 = '.'
          · subst hc2
            cases heq2 : parseSeg r2 with
            | none => simp [parseVersionAt, heq1, heq2] at h
            | some p2 =>
              obtain ⟨d2, r3⟩ := p2
              cases r3 with
              | nil => simp [parseVersionAt, heq1, heq2] at h
              | cons c3 r4 =>
                by_cases hc3 : c3 = '.'
                · subst hc3
                  cases heq3 : parseSeg r4 with
                  | none => simp [parseVersionAt, heq1, heq2, heq3] at h
                  | some p3 =>
                    obtain ⟨d3, r5⟩ := p3
                    cases r5 with
                    | nil => simp [parseVersionAt, heq1, heq2, heq3] at h
                    | cons c4 rest =>
                      by_cases hc4 : c4 = ']'
                      · subst hc4
                        obtain ⟨e1, hne1, hdig1⟩ := parseSeg_sound heq1
                        obtain ⟨e2, hne2, hdig2⟩ := parseSeg_sound heq2
                        obtain ⟨e3, hne3, hdig3⟩ := parseSeg_sound heq3
                        refine ⟨d1, d2, d3, rest, ?_, hne1, hne2, hne3,
                          hdig1, hdig2, hdig3⟩
                        rw [e1, e2, e3]
                      · simp [parseVersionAt, heq1, heq2, heq3, hc4] at h
                · simp [parseVersionAt, heq1, heq2, hc3] at h
          · simp [parseVersionAt, heq1, hc2] at h
    · simp [parseVersionAt, hc] at h

/-- The head match succeeds on every well-formed version token. -/
theorem parseVersionAt_complete (d1 d2 d3 b : List Char)
    (h1 : d1 ≠ []) (h2 : d2 ≠ []) (h3 : d3 ≠ [])
    (g1 : ∀ c ∈ d1, c.isDigit = true) (g2 : ∀ c ∈ d2, c.isDigit = true)
    (g3 : ∀ c ∈ d3, c.isDigit = true) :
    (parseVersionAt ('[' :: (d1 ++ '.' :: (d2 ++ '.' :: (d3 ++ ']' :: b))))).isSome = true := by
  have e3 : parseSeg (d3 ++ ']' :: b) = some (d3, ']' :: b) :=
    parseSeg_complete _ _ _ h3 g3 (by decide)
  have e2 : parseSeg (d2 ++ '.' :: (d3 ++ ']' :: b))
      = some (d2, '.' :: (d3 ++ ']' :: b)) :=
    parseSeg_complete _ _ _ h2 g2 (by decide)
  have e1 : parseSeg (d1 ++ '.' :: (d2 ++ '.' :: (d3 ++ ']' :: b)))
      = some (d1, '.' :: (d2 ++ '.' :: (d3 ++ ']' :: b))) :=
    parseSeg_complete _ _ _ h1 g1 (by decide)
  simp [parseVersionAt, e1, e2, e3]

/-- Soundness of the scan: a found version means the text contains a version
token. -/
theorem findVersion_sound {l v : List Char} (h : findVersion l = some v) :
    hasVersionToken l := by
  induction l with
  | nil => simp [findVersion] at h
  | cons c rest ih =>
    cases hp : parseVersionAt (c :: rest) with
    | some v0 =>
      obtain ⟨d1, d2, d3, b, hl, hne1, hne2, hne3, g1, g2, g3⟩ :=
        parseVersionAt_sound hp
      exact ⟨[], d1, d2, d3, b, by simpa using hl, hne1, hne2, hne3, g1, g2, g3⟩
    | none =>
      unfold findVersion at h
      rw [hp] at h
      obtain ⟨a, d1, d2, d3, b, hl, hne1, hne2, hne3, g1, g2, g3⟩ := ih h
      exact ⟨c :: a, d1, d2, d3, b, by rw [List.cons_append, hl], hne1, hne2, hne3,
        g1, g2, g3⟩

/-- Completeness of the scan: a version token in the text is found. -/
theorem findVersion_isSome_of_token {l : List Char} (h : hasVersionToken l) :
    (findVersion l).isSome = true := by
  obtain ⟨a, d1, d2, d3, b, rfl, h1, h2, h3, g1, g2, g3⟩ := h
  induction a with
  | nil =>
    simp only [List.nil_append]
    have hsome := parseVersionAt_complete d1 d2 d3 b h1 h2 h3 g1 g2 g3
    rw [Option.isSome_iff_exists] at hsome
    obtain ⟨v, hv⟩ := hsome
    unfold findVersion
    simp [hv]
  | cons c a ih =>
    simp only [List.cons_append]
    unfold findVersion
    cases hp : parseVersionAt (c :: (a ++ '[' :: (d1 ++ '.' :: (d2 ++ '.' :: (d3 ++ ']' :: b))))) with
    | some v => simp
    | none => exact ih

/-- If the scan finds nothing, the text contains no version token. -/
theorem not_token_of_findVersion_none {l : List Char} (h : findVersion l = none) :
    ¬ hasVersionToken l := by
  intro ht
  have := findVersion_isSome_of_token ht
  rw [h] at this
  simp at this

/-- If the text contains no version token, the scan finds nothing. -/
theorem findVersion_none_of_not_token {l : List Char} (h : ¬ hasVersionToken l) :
    findVersion l = none := by
  cases hf : findVersion l with
  | none => rfl
  | some v => exact absurd (findVersion_sound hf) h

/-- C8: when the combined deploy output contains no bracketed three-part
dot-separated numeric token, a zero-exit run of `run_forge_deploy` returns
without error and the deployed version stays `none`; a `none` version makes
the SUCCESSFUL description identical to the version-less one (the version
line is simply omitted). -/
theorem c8_missing_version_token_non_fatal (stdout stderr : String)
    (h : ¬ hasVersionToken (combinedOutput stdout stderr).data) :
    run_forge_deploy true stdout stderr = .ok none
    ∧ (∀ branch gitHash forgeUser,
        create_deployment_description_local .successful none branch gitHash forgeUser
          = create_deployment_description_local .inProgress none branch gitHash forgeUser) := by
  constructor
  · unfold run_forge_deploy extract_version
    rw [findVersion_none_of_not_token h]
    rfl
  · intro branch gitHash forgeUser
    rfl

/-- Witness for C8 on a concrete version-free output. -/
theorem c8_missing_version_token_non_fatal_witness :
    run_forge_deploy true "Deploying app to development..." "" = .ok none :=
  (c8_missing_version_token_non_fatal "Deploying app to development..." ""
    (not_token_of_findVersion_none (by decide))).1

/-- Looking up a path whose head entry matches. -/
theorem lookupFS_cons_pos (e : FilePath0 × String) (fs : FileSystem) (p : FilePath0)
    (h : (e.1 == p) = true) : lookupFS (e :: fs) p = some e.2 := by
  have hfind : List.find? (fun x => x.1 == p) (e :: fs) = some e :=
    List.find?_cons_of_pos _ h
  unfold lookupFS
  rw [hfind]
  rfl

/-- Looking up a path whose head entry does not match. -/
theorem lookupFS_cons_neg (e : FilePath0 × String) (fs : FileSystem) (p : FilePath0)
    (h : (e.1 == p) = false) : lookupFS (e :: fs) p = lookupFS fs p := by
  have hfind : List.find? (fun x => x.1 == p) (e :: fs)
      = List.find? (fun x => x.1 == p) fs :=
    List.find?_cons_of_neg _ (by simp [h])
  unfold lookupFS
  rw [hfind]

/-- A directory is always a leading part of its own extensions. -/
theorem underDir_append_self (d x : FilePath0) : underDir d (d ++ x) = true := by
  induction d with
  | nil => simp [underDir]
  | cons a d ih => simp [underDir, ih]

/-- A path under a directory is that directory followed by the rest. -/
theorem eq_append_drop_of_underDir {d q : FilePath0} (h : underDir d q = true) :
    q = d ++ q.drop d.length := by
  induction d generalizing q with
  | nil => simp
  | cons a d ih =>
    cases q with
    | nil => simp [underDir] at h
    | cons b q =>
      simp only [underDir, Bool.and_eq_true, beq_iff_eq] at h
      obtain ⟨rfl, h⟩ := h
      simpa using ih h

/-- Looking a path up in two concatenated filesystems tries the first, then
the second. -/
theorem lookupFS_append (l1 l2 : FileSystem) (p : FilePath0) :
    lookupFS (l1 ++ l2) p
      = match lookupFS l1 p with
        | some c => some c
        | none => lookupFS l2 p := by
  induction l1 with
  | nil => simp [lookupFS]
  | cons e l1 ih =>
    by_cases h : (e.1 == p) = true
    · rw [List.cons_append, lookupFS_cons_pos _ _ _ h, lookupFS_cons_pos _ _ _ h]
    · have h' : (e.1 == p) = false := by simpa using h
      rw [List.cons_append, lookupFS_cons_neg _ _ _ h', lookupFS_cons_neg _ _ _ h']
      exact ih

/-- Filtering by a predicate on the key commutes with lookup. -/
theorem lookupFS_filter_key (q : FilePath0 → Bool) (fs : FileSystem) (p : FilePath0) :
    lookupFS (fs.filter (fun e => q e.1)) p
      = if q p then lookupFS fs p else none := by
  induction fs with
  | nil => simp [lookupFS]
  | cons e fs ih =>
    rw [List.filter_cons]
    by_cases hep : (e.1 == p) = true
    · have heq : e.1 = p := by simpa using hep
      by_cases hq : q p
      · simp only [heq, hq, if_true]
        rw [lookupFS_cons_pos _ _ _ hep, lookupFS_cons_pos _ _ _ hep]
      · simp only [heq, hq, Bool.false_eq_true, if_false]
        rw [ih]
        simp [hq]
    · have hep' : (e.1 == p) = false := by simpa using hep
      by_cases hq : q e.1
      · simp only [hq, if_true]
        rw [lookupFS_cons_neg _ _ _ hep', lookupFS_cons_neg _ _ _ hep']
        exact ih
      · simp only [hq, Bool.false_eq_true, if_false]
        rw [ih, lookupFS_cons_neg _ _ _ hep']

/-- A member entry makes its own path found. -/
theorem lookupFS_ne_none_of_mem {fs : FileSystem} {e : FilePath0 × String}
    (h : e ∈ fs) : lookupFS fs e.1 ≠ none := by
  induction fs with
  | nil => simp at h
  | cons a fs ih =>
    by_cases hap : (a.1 == e.1) = true
    · rw [lookupFS_cons_pos _ _ _ hap]
      simp
    · have hap' : (a.1 == e.1) = false := by simpa using hap
      rcases List.mem_cons.1 h with rfl | h
      · simp at hap'
      · rw [lookupFS_cons_neg _ _ _ hap']
        exact ih h

/-- No file lies under a directory that does not exist. -/
theorem lookupFS_eq_none_of_not_exists {fs : FileSystem} {tgt p : FilePath0}
    (hex : existsPath fs tgt = false) (hp : underDir tgt p = true) :
    lookupFS fs p = none := by
  induction fs with
  | nil => rfl
  | cons e fs ih =>
    rw [existsPath, List.any_eq_false] at hex
    have he : underDir tgt e.1 = false := by
      have := hex e (List.mem_cons_self _ _)
      simpa using this
    have hep : (e.1 == p) = false := by
      simp only [beq_eq_false_iff_ne, ne_eq]
      intro hc
      rw [hc, hp] at he
      simp at he
    rw [lookupFS_cons_neg _ _ _ hep]
    apply ih
    rw [existsPath, List.any_eq_false]
    intro a ha
    simpa using hex a (List.mem_cons_of_mem _ ha)

/-- Copied entries live only under the target directory. -/
theorem lookupFS_copiedEntries_eq_none {src tgt : FilePath0} {fs : FileSystem}
    {p : FilePath0} (h : underDir tgt p = false) :
    lookupFS (copiedEntries src tgt fs) p = none := by
  induction fs with
  | nil => rfl
  | cons e fs ih =>
    rw [copiedEntries, List.filterMap_cons]
    by_cases hu : underDir src e.1
    · simp only [hu, if_true]
      have hne : ((tgt ++ e.1.drop src.length, e.2).1 == p) = false := by
        simp only [beq_eq_false_iff_ne, ne_eq]
        intro hc
        rw [← hc] at h
        rw [underDir_append_self] at h
        simp at h
      rw [lookupFS_cons_neg _ _ _ hne]
      exact ih
    · simp only [hu, Bool.false_eq_true, if_false]
      exact ih

/-- A hit among the copied entries comes from a source file whose rebased path
is the looked-up one. -/
theorem lookupFS_copiedEntries_some {src tgt : FilePath0} {fs : FileSystem}
    {p : FilePath0} {c : String}
    (h : lookupFS (copiedEntries src tgt fs) p = some c) :
    ∃ e ∈ fs, underDir src e.1 = true ∧ tgt ++ e.1.drop src.length = p ∧ e.2 = c := by
  induction fs with
  | nil => simp [copiedEntries, lookupFS] at h
  | cons e fs ih =>
    rw [copiedEntries, List.filterMap_cons] at h
    by_cases hu : underDir src e.1
    · simp only [hu, if_true] at h
      by_cases hkey : ((tgt ++ e.1.drop src.length, e.2).1 == p) = true
      · rw [lookupFS_cons_pos _ _ _ hkey] at h
        injection h with h
        exact ⟨e, List.mem_cons_self _ _, hu, by simpa using hkey, h⟩
      · have hkey' : ((tgt ++ e.1.drop src.length, e.2).1 == p) = false := by
          simpa using hkey
        rw [lookupFS_cons_neg _ _ _ hkey'] at h
        obtain ⟨e', he', hu', hk', hc'⟩ := ih h
        exact ⟨e', List.mem_cons_of_mem _ he', hu', hk', hc'⟩
    · simp only [hu, Bool.false_eq_true, if_false] at h
      obtain ⟨e', he', hu', hk', hc'⟩ := ih h
      exact ⟨e', List.mem_cons_of_mem _ he', hu', hk', hc'⟩

/-- Looking up a rebased path among the copied entries is looking up the
corresponding source path among the source files. -/
theorem lookupFS_copiedEntries_eq (src tgt rest : FilePath0) (fs : FileSystem) :
    lookupFS (copiedEntries src tgt fs) (tgt ++ rest)
      = lookupFS (fs.filter (fun e => underDir src e.1)) (src ++ rest) := by
  induction fs with
  | nil => rfl
  | cons e fs ih =>
    rw [copiedEntries, List.filterMap_cons, List.filter_cons]
    by_cases hu : underDir src e.1
    · simp only [hu, if_true]
      have hiff : ((tgt ++ e.1.drop src.length == tgt ++ rest) = true)
          ↔ ((e.1 == src ++ rest) = true) := by
        simp only [beq_iff_eq]
        constructor
        · intro hk
          have hdrop := List.append_cancel_left hk
          rw [eq_append_drop_of_underDir hu, hdrop]
        · intro hk
          rw [hk, List.drop_left]
      by_cases hkey : (e.1 == src ++ rest) = true
      · have hkey2 := hiff.2 hkey
        rw [lookupFS_cons_pos _ _ _ hkey2, lookupFS_cons_pos _ _ _ hkey]
      · have hkey' : (e.1 == src ++ rest) = false := by simpa using hkey
        have hkey2 : (tgt ++ e.1.drop src.length == tgt ++ rest) = false := by
          rw [Bool.eq_false_iff]
          intro hc
          exact hkey (hiff.1 hc)
        rw [lookupFS_cons_neg _ _ _ hkey2, lookupFS_cons_neg _ _ _ hkey']
        exact ih
    · simp only [hu, Bool.false_eq_true, if_false]
      exact ih

/-- C10: copying a directory entry is a destructive replace.  For every
filesystem: files outside the target directory are untouched; every file
under the target directory whose corresponding source path does not exist is
removed (so files that existed only under the target are gone, not merged);
and each source file lands at its rebased path under the target (stated for
targets that do not contain the source). -/
theorem c10_copy_directory_destructive_replace (fs : FileSystem) (src tgt : FilePath0) :
    (∀ p, underDir tgt p = false →
      lookupFS (copy_directory_to_directory src tgt fs) p = lookupFS fs p)
    ∧ (∀ p, underDir tgt p = true →
        lookupFS fs (src ++ p.drop tgt.length) = none →
        lookupFS (copy_directory_to_directory src tgt fs) p = none)
    ∧ (∀ rest c, underDir tgt (src ++ rest) = false →
        lookupFS fs (src ++ rest) = some c →
        lookupFS (copy_directory_to_directory src tgt fs) (tgt ++ rest) = some c) := by
  have hcopy : copy_directory_to_directory src tgt fs
      = copiedEntries src tgt (if existsPath fs tgt then rmtree tgt fs else fs)
        ++ (if existsPath fs tgt then rmtree tgt fs else fs) := rfl
  obtain ⟨F, hF⟩ : ∃ F, (if existsPath fs tgt then rmtree tgt fs else fs) = F :=
    ⟨_, rfl⟩
  rw [hF] at hcopy
  have hframe : ∀ p, underDir tgt p = false → lookupFS F p = lookupFS fs p := by
    intro p hp
    rw [← hF]
    by_cases hex : existsPath fs tgt
    · simp only [hex, if_true]
      rw [rmtree, lookupFS_filter_key (fun x => !underDir tgt x) fs p]
      simp [hp]
    · simp [hex]
  have hunder : ∀ p, underDir tgt p = true → lookupFS F p = none := by
    intro p hp
    rw [← hF]
    by_cases hex : existsPath fs tgt
    · simp only [hex, if_true]
      rw [rmtree, lookupFS_filter_key (fun x => !underDir tgt x) fs p]
      simp [hp]
    · simp only [hex, Bool.false_eq_true, if_false]
      exact lookupFS_eq_none_of_not_exists (by simpa using hex) hp
  have hmemF : ∀ e, e ∈ F → e ∈ fs := by
    intro e he
    rw [← hF] at he
    by_cases hex : existsPath fs tgt
    · simp only [hex, if_true] at he
      exact (List.mem_filter.1 he).1
    · simpa [hex] using he
  refine ⟨?_, ?_, ?_⟩
  · intro p hp
    rw [hcopy, lookupFS_append, lookupFS_copiedEntries_eq_none hp]
    exact hframe p hp
  · intro p hp hsrc
    have hcopied : lookupFS (copiedEntries src tgt F) p = none := by
      cases hc : lookupFS (copiedEntries src tgt F) p with
      | none => rfl
      | some c =>
        obtain ⟨e, he, hu, hk, _⟩ := lookupFS_copiedEntries_some hc
        have hdrop : p.drop tgt.length = e.1.drop src.length := by
          rw [← hk, List.drop_left]
        have hpath : e.1 = src ++ p.drop tgt.length := by
          rw [hdrop]
          exact eq_append_drop_of_underDir hu
        have := lookupFS_ne_none_of_mem (hmemF e he)
        rw [hpath] at this
        exact absurd hsrc this
    rw [hcopy, lookupFS_append, hcopied]
    exact hunder p hp
  · intro rest c hntgt hsome
    have hcopied : lookupFS (copiedEntries src tgt F) (tgt ++ rest) = some c := by
      rw [lookupFS_copiedEntries_eq,
        lookupFS_filter_key (fun x => underDir src x) F (src ++ rest)]
      rw [underDir_append_self]
      simp only [if_true]
      rw [hframe _ hntgt]
      exact hsome
    rw [hcopy, lookupFS_append, hcopied]

/-- Witness for C10 on a concrete three-file filesystem: the target-only file
is deleted, the outside file is untouched, and the source file is copied. -/
theorem c10_copy_directory_destructive_replace_witness :
    lookupFS (copy_directory_to_directory ["src"] ["proj", "cfg"]
        [(["proj", "cfg", "old.txt"], "o"), (["src", "a.txt"], "x"), (["keep.txt"], "k")])
      ["proj", "cfg", "old.txt"] = none
    ∧ lookupFS (copy_directory_to_directory ["src"] ["proj", "cfg"]
        [(["proj", "cfg", "old.txt"], "o"), (["src", "a.txt"], "x"), (["keep.txt"], "k")])
      ["keep.txt"] = some "k"
    ∧ lookupFS (copy_directory_to_directory ["src"] ["proj", "cfg"]
        [(["proj", "cfg", "old.txt"], "o"), (["src", "a.txt"], "x"), (["keep.txt"], "k")])
      ["proj", "cfg", "a.txt"] = some "x" :=
  ⟨((c10_copy_directory_destructive_replace
      [(["proj", "cfg", "old.txt"], "o"), (["src", "a.txt"], "x"), (["keep.txt"], "k")]
      ["src"] ["proj", "cfg"]).2.1 ["proj", "cfg", "old.txt"] (by decide) (by decide)),
   ((c10_copy_directory_destructive_replace
      [(["proj", "cfg", "old.txt"], "o"), (["src", "a.txt"], "x"), (["keep.txt"], "k")]
      ["src"] ["proj", "cfg"]).1 ["keep.txt"] (by decide)).trans (by decide),
   ((c10_copy_directory_destructive_replace
      [(["proj", "cfg", "old.txt"], "o"), (["src", "a.txt"], "x"), (["keep.txt"], "k")]
      ["src"] ["proj", "cfg"]).2.2 ["a.txt"] "x" (by decide) (by decide))⟩
